import Mathlib

/-!
# lingmo-pkgbuild: metadata resolution and build pipeline

A shallow embedding of `src/lingmo_pkgbuild.cpp` and of the batch loop of
`src/main.cpp`.  Byte strings (`std::string`, `std::filesystem::path`) are
character lists; file reads are inputs of the functions that perform them;
external commands and file-system effects are answered by an explicit
environment that is threaded through the code as state.
-/

namespace LingmoPkgBuild

/-! ## Strings and streams -/

/-- Byte strings of the program (`std::string`). -/
abbrev Str := List Char

/-- Characters accepted by `std::isspace` in the default "C" locale. -/
def isspace (c : Char) : Bool :=
  c == ' ' || c == '\t' || c == '\n' || c == '\x0b' || c == '\x0c' || c == '\r'

/-- Index of the first occurrence of `c`, as `std::string::find(c)`;
`none` stands for `npos`. -/
def find : Str → Char → Option Nat
  | [], _ => none
  | x :: xs, c => if x = c then some 0 else (find xs c).map (· + 1)

/-- Index of the first occurrence of `c` at or after `pos`, as
`std::string::find(c, pos)`. -/
def findFrom (s : Str) (c : Char) (pos : Nat) : Option Nat :=
  (find (s.drop pos) c).map (· + pos)

/-- Substring of at most `len` characters from `pos`, as
`std::string::substr(pos, len)` (for `pos` within the string). -/
def substr (s : Str) (pos len : Nat) : Str :=
  (s.drop pos).take len

/-- Suffix from `pos`, as `std::string::substr(pos)`. -/
def substrFrom (s : Str) (pos : Nat) : Str :=
  s.drop pos

/-- Test `s.compare(pos, len, lit) == 0`: the characters of `s` from `pos`,
at most `len` of them, are exactly `lit`. -/
def compareEq (s : Str) (pos len : Nat) (lit : Str) : Bool :=
  substr s pos len == lit

/-- Lines handed out by successive successful `std::getline` calls on a
stream holding `rest`, when `cur` has already been read of the current line.
A final line without a newline is returned when it is non-empty. -/
def getlinesAux : Str → Str → List Str
  | cur, [] => if cur.isEmpty then [] else [cur]
  | cur, c :: rest =>
    if c = '\n' then cur :: getlinesAux [] rest else getlinesAux (cur ++ [c]) rest

/-- All lines of a stream, in the order the loop
`while (std::getline(file, line))` sees them. -/
def getlines (content : Str) : List Str :=
  getlinesAux [] content

/-- One `std::getline` on a fresh stream: the first line, or `none` when the
call fails because the stream is empty. -/
def getline (content : Str) : Option Str :=
  (getlines content).head?

/-! ## Data model -/

/-- Modelled from the spec: the enumeration `PackageType` is declared in the
header `lingmo_pkgbuild.h`, which is not among the sources; the spec gives
its two values, Native and Quilt. -/
inductive PackageType where
  | Native
  | Quilt
  deriving DecidableEq, Repr

/-- Data members of a `LingmoPkgBuilder` object. -/
structure Builder where
  m_packageName : Str
  m_version : Str
  m_architecture : Str
  m_maintainer : Str
  m_description : Str
  m_packageType : PackageType
  m_tempDir : Str
  deriving DecidableEq, Repr

/-- Modelled from the spec: `isNativePackage` is defined in the missing
header; the package is native when its format is Native. -/
def Builder.isNativePackage (b : Builder) : Bool :=
  b.m_packageType == PackageType.Native

/-- Process-wide configuration (the static members `s_buildDir`,
`s_outputDir`, `s_threadCount`, `s_signBuild`, `s_signKey`). -/
structure Config where
  s_buildDir : Str
  s_outputDir : Str
  s_threadCount : Int
  s_signBuild : Bool
  s_signKey : Str
  deriving DecidableEq, Repr

/-- Initial values of the static members. -/
def Config.default : Config :=
  { s_buildDir := ".build_deb_lingmo".toList
    s_outputDir := "pkg_out".toList
    s_threadCount := 1
    s_signBuild := true
    s_signKey := [] }

/-! ## Metadata parsing -/

/-- Body of `parseChangelogFile`.  `file` is the content of the changelog,
`none` when it cannot be opened.  The object is returned together with the
boolean result, since the version member is assigned in place. -/
def parseChangelogFile (b : Builder) (file : Option Str) : Bool × Builder :=
  match file with
  | none => (false, b)
  | some content =>
    match getline content with
    | none => (false, b)
    | some line =>
      match find line '(' with
      | none => (false, b)
      | some start =>
        match findFrom line ')' start with
        | none => (false, b)
        | some stop => (true, { b with m_version := substr line (start + 1) (stop - start - 1) })

/-- One iteration of the line loop of `parseControlFile`, on the object and
the local flag `foundSource`. -/
def controlLine (b : Builder) (foundSource : Bool) (line : Str) : Builder × Bool :=
  match line with
  | [] => (b, foundSource)
  | c0 :: _ =>
    if c0 = '#' then (b, foundSource)
    else if !isspace c0 then
      if compareEq line 0 9 "Package: ".toList then
        ({ b with m_packageName := substrFrom line 9 }, foundSource)
      else if compareEq line 0 9 "Version: ".toList then
        if b.m_version.isEmpty then
          ({ b with m_version := substrFrom line 9 }, foundSource)
        else (b, foundSource)
      else if compareEq line 0 14 "Architecture: ".toList then
        ({ b with m_architecture := substrFrom line 14 }, foundSource)
      else if compareEq line 0 12 "Maintainer: ".toList then
        ({ b with m_maintainer := substrFrom line 12 }, foundSource)
      else if compareEq line 0 13 "Description: ".toList then
        ({ b with m_description := substrFrom line 13 }, foundSource)
      else if compareEq line 0 8 "Source: ".toList then
        (b, true)
      else (b, foundSource)
    else (b, foundSource)

/-- The line loop of `parseControlFile` over the lines of the file. -/
def controlLoop : Builder → Bool → List Str → Builder × Bool
  | b, foundSource, [] => (b, foundSource)
  | b, foundSource, line :: rest =>
    controlLoop (controlLine b foundSource line).1 (controlLine b foundSource line).2 rest

/-- Validation block at the end of `parseControlFile`: missing name, default
version, default architecture. -/
def controlValidate (b : Builder) (foundSource : Bool) : Bool × Builder :=
  let isValid1 := !b.m_packageName.isEmpty
  let b1 := if b.m_version.isEmpty then { b with m_version := "0.1.0".toList } else b
  if b1.m_architecture.isEmpty then
    if foundSource then (isValid1, { b1 with m_architecture := "all".toList })
    else (false, b1)
  else (isValid1, b1)

/-- Body of `parseControlFile`.  `file` is the content of the control file,
`none` when it cannot be opened. -/
def parseControlFile (b : Builder) (file : Option Str) : Bool × Builder :=
  match file with
  | none => (false, b)
  | some content =>
    let b0 := { b with m_packageName := [], m_architecture := [],
                       m_maintainer := [], m_description := [] }
    let st := controlLoop b0 false (getlines content)
    controlValidate st.1 st.2

/-- Object state when the constructor starts parsing: the string members are
still default-constructed. -/
def Builder.fresh (type : PackageType) (tempDir : Str) : Builder :=
  { m_packageName := [], m_version := [], m_architecture := [], m_maintainer := [],
    m_description := [], m_packageType := type, m_tempDir := tempDir }

/-! ## Paths -/

/-- Path join, the operator `/` of `std::filesystem::path` for POSIX
pathnames: an absolute right operand replaces the left one; otherwise a
separator is inserted when the left operand ends in a file name. -/
def pathAppend (p q : Str) : Str :=
  if q.head? = some '/' then q
  else if !p.isEmpty && p.getLast? != some '/' then p ++ '/' :: q
  else p ++ q

/-- Parent of a POSIX pathname, as `parent_path()`: the final file name and
the separators before it are removed; a root, written with one or several
slashes, is kept as written and is its own parent. -/
def parent_path (p : Str) : Str :=
  let r1 := p.reverse.dropWhile (· != '/')
  let r2 := r1.dropWhile (· == '/')
  if r2.isEmpty && !r1.isEmpty then r1.reverse else r2.reverse

/-! ## Construction -/

/-- What the constructor finds on the file system for one source directory.
Each field is the answer of one read; the staged files are read from the
staging directory after the copy. -/
structure SourceView where
  /-- Content of `sourceDir/debian/changelog`, `none` when it cannot be opened. -/
  changelog : Option Str
  /-- Creating or populating the staging directory raises a file-system error. -/
  stagingThrows : Bool
  /-- Content of `m_tempDir/debian/changelog`, `none` when it cannot be opened. -/
  stagedChangelog : Option Str
  /-- Content of `m_tempDir/debian/control`, `none` when it cannot be opened. -/
  stagedControl : Option Str
  /-- Content of `m_tempDir/debian/source/format`, `none` when it does not
  exist, empty when it exists but cannot be read. -/
  stagedFormat : Option Str
  deriving DecidableEq, Repr

/-- Reasons for which the constructor throws. -/
inductive CtorError where
  | changelogNotOpened
  | noPackageName
  | filesystem
  | controlNotParsed
  deriving DecidableEq, Repr

/-- Name token of the changelog, lines 19 to 34 of the constructor: the text
before the first space of the first line, empty when there is none. -/
def correctNameOf (content : Str) : Str :=
  match getline content with
  | none => []
  | some line =>
    match find line ' ' with
    | some spacePos => substr line 0 spacePos
    | none => []

/-- Format check of the constructor (lines 70 to 81): `marker` is the content
of the format file, `none` when the file does not exist. -/
def classifyFormat (type : PackageType) (marker : Option Str) : PackageType :=
  match marker with
  | none => type
  | some content =>
    let formatStr := (getline content).getD []
    if formatStr = "3.0 (quilt)".toList then PackageType.Quilt
    else if formatStr = "3.0 (native)".toList then PackageType.Native
    else type

/-- The constructor `LingmoPkgBuilder(sourceDir, type)`. -/
def construct (cfg : Config) (src : SourceView) (type : PackageType) :
    Except CtorError Builder :=
  match src.changelog with
  | none => .error .changelogNotOpened
  | some content =>
    let correctName := correctNameOf content
    if correctName.isEmpty then .error .noPackageName
    else
      let m_tempDir := pathAppend cfg.s_buildDir correctName
      if src.stagingThrows then .error .filesystem
      else
        let b1 := (parseChangelogFile (Builder.fresh type m_tempDir) src.stagedChangelog).2
        let r := parseControlFile b1 src.stagedControl
        if !r.1 then .error .controlNotParsed
        else
          .ok { r.2 with m_packageType := classifyFormat r.2.m_packageType src.stagedFormat,
                         m_packageName := correctName }

/-! ## Building -/

/-- File-system steps whose only observable answer is whether they threw. -/
inductive FsStep where
  | scratchCopy
  | scratchRemove
  | collectArtifacts
  deriving DecidableEq, Repr

/-- The outside world as the builder sees it: `system` answers
`std::system` with an exit status, `fs` answers a file-system step with
`true` when it completes without an exception.  Both may change the state
of the world. -/
structure Env (σ : Type) where
  system : σ → Str → Int × σ
  fs : σ → FsStep → Bool × σ

/-- Observable steps of a build, in the order they happen. -/
inductive Event where
  | stagingCopy (cmd : Str)
  | archive (cmd : Str)
  | backend (cmd : Str)
  | scratch (step : FsStep)
  | collect (packageName : Str)
  deriving DecidableEq, Repr

/-- Body of `runCommand`: success is exit status zero. -/
def runCommand {σ : Type} (env : Env σ) (s : σ) (cmd : Str) : Bool × σ :=
  ((env.system s cmd).1 == 0, (env.system s cmd).2)

/-- Body of `copyArtifacts`: `false` when a file-system call throws. -/
def copyArtifacts {σ : Type} (env : Env σ) (s : σ) (_packageName : Str) : Bool × σ :=
  env.fs s FsStep.collectArtifacts

/-- Upstream version as computed in `createOrigTarball` (lines 122 to 127). -/
def upstreamVersionTarball (m_version : Str) : Str :=
  match find m_version '-' with
  | some dashPos => substr m_version 0 dashPos
  | none => m_version

/-- Upstream version as computed in `build` (lines 174 to 179). -/
def upstreamVersionBuild (m_version : Str) : Str :=
  match find m_version '-' with
  | some dashPos => substr m_version 0 dashPos
  | none => m_version

/-- Result of a member function that talks to the world: its boolean
result, the steps it took, and the world afterwards. -/
structure Outcome (σ : Type) where
  result : Bool
  events : List Event
  world : σ

/-- Body of `createOrigTarball`. -/
def createOrigTarball {σ : Type} (env : Env σ) (b : Builder) (s : σ) : Outcome σ :=
  if b.isNativePackage then ⟨true, [], s⟩
  else
    let upstreamVersion := upstreamVersionTarball b.m_version
    let c := env.fs s FsStep.scratchCopy
    if !c.1 then ⟨false, [Event.scratch FsStep.scratchCopy], c.2⟩
    else
      let tarCmd := "cd ".toList ++ b.m_tempDir ++ " && ".toList
        ++ "tar -Jcf ".toList ++ b.m_packageName ++ "_".toList ++ upstreamVersion
        ++ ".orig.tar.xz ".toList ++ b.m_packageName
      let t := env.system c.2 tarCmd
      let result := t.1 == 0
      let r := env.fs t.2 FsStep.scratchRemove
      ⟨if !r.1 then false else result,
        [Event.scratch FsStep.scratchCopy, Event.archive tarCmd,
          Event.scratch FsStep.scratchRemove], r.2⟩

/-- Command line of the build backend composed in `build` (lines 192 to
210). -/
def buildCmd (cfg : Config) (b : Builder) : Str :=
  let c0 := "cd ".toList ++ b.m_tempDir ++ " && dpkg-buildpackage -b".toList
  let c1 := if cfg.s_threadCount > 1 then c0 ++ (" -j".toList ++ (Int.repr cfg.s_threadCount).toList) else c0
  let c2 :=
    if !cfg.s_signBuild then c1 ++ " -us -uc --no-sign".toList
    else if !cfg.s_signKey.isEmpty then c1 ++ (" -k".toList ++ cfg.s_signKey)
    else c1
  if !b.isNativePackage then c2 ++ " -sa".toList else c2

/-- Archive command composed in `build` (lines 181 to 184). -/
def buildTarCmd (b : Builder) : Str :=
  "cd ".toList ++ parent_path b.m_tempDir ++ " && ".toList
    ++ "tar --exclude=debian -Jcf ".toList ++ b.m_packageName ++ "_".toList
    ++ upstreamVersionBuild b.m_version ++ ".orig.tar.xz ".toList
    ++ "-C ".toList ++ b.m_packageName ++ " .".toList

/-- Steps 3 and 4 of `build`: the backend, then artifact collection. -/
def buildBackend {σ : Type} (env : Env σ) (cfg : Config) (b : Builder) (s : σ)
    (before : List Event) : Outcome σ :=
  let r := runCommand env s (buildCmd cfg b)
  if !r.1 then ⟨false, before ++ [Event.backend (buildCmd cfg b)], r.2⟩
  else
    let a := copyArtifacts env r.2 b.m_packageName
    ⟨a.1, before ++ [Event.backend (buildCmd cfg b), Event.collect b.m_packageName], a.2⟩

/-- Body of `build(sourceDir)`. -/
def build {σ : Type} (env : Env σ) (cfg : Config) (b : Builder) (sourceDir : Str) (s : σ) :
    Outcome σ :=
  let cpCmd := "cp -r ".toList ++ sourceDir ++ "/* ".toList ++ b.m_tempDir
  let r1 := runCommand env s cpCmd
  if !r1.1 then ⟨false, [Event.stagingCopy cpCmd], r1.2⟩
  else if !b.isNativePackage then
    let r2 := runCommand env r1.2 (buildTarCmd b)
    if !r2.1 then ⟨false, [Event.stagingCopy cpCmd, Event.archive (buildTarCmd b)], r2.2⟩
    else buildBackend env cfg b r2.2 [Event.stagingCopy cpCmd, Event.archive (buildTarCmd b)]
  else buildBackend env cfg b r1.2 [Event.stagingCopy cpCmd]

/-- Body of `buildFromDirectory`: construct, then build; a thrown error is
caught and reported as `false`.  `view` answers the constructor's reads for
a given source directory, `type` is the constructor's default format. -/
def buildFromDirectory {σ : Type} (env : Env σ) (cfg : Config) (view : Str → SourceView)
    (type : PackageType) (s : σ) (sourceDir : Str) : Outcome σ :=
  match construct cfg (view sourceDir) type with
  | .error _ => ⟨false, [], s⟩
  | .ok builder => build env cfg builder sourceDir s

/-! ## Batch loops -/

/-- One entry of a `directory_iterator` over the source root. -/
structure DirEntry where
  path : Str
  is_directory : Bool
  /-- Whether `entry.path() / "debian"` exists. -/
  hasDebian : Bool
  deriving DecidableEq, Repr

/-- State of a batch loop: the success flag, the attempts made so far with
their results, and the world. -/
structure Batch (σ : Type) where
  allSuccess : Bool
  attempts : List (Str × Bool)
  world : σ

/-- One iteration of the loop of `main` (lines 162 to 170); `attempt` stands
for `buildFromDirectory`. -/
def mainStep {σ : Type} (attempt : σ → Str → Bool × σ) (st : Batch σ) (entry : DirEntry) :
    Batch σ :=
  if !entry.is_directory then st
  else
    let r := attempt st.world entry.path
    { allSuccess := if !r.1 then false else st.allSuccess
      attempts := st.attempts ++ [(entry.path, r.1)]
      world := r.2 }

/-- The loop of `main` over the entries of the source root. -/
def mainLoop {σ : Type} (attempt : σ → Str → Bool × σ) (w : σ) (entries : List DirEntry) :
    Batch σ :=
  entries.foldl (mainStep attempt) { allSuccess := true, attempts := [], world := w }

/-- Exit status of `main` after the loop (lines 172 to 185), when the final
report and clean-up raise no error. -/
def mainExit {σ : Type} (st : Batch σ) : Int :=
  if !st.allSuccess then 1 else 0

/-- One iteration of the loop of `buildAllPackages` (lines 25 to 40). -/
def buildAllStep {σ : Type} (attempt : σ → Str → Bool × σ) (st : Batch σ) (entry : DirEntry) :
    Batch σ :=
  if !entry.is_directory then st
  else if !entry.hasDebian then st
  else
    let debianDir := pathAppend entry.path "debian".toList
    let r := attempt st.world debianDir
    { allSuccess := if !r.1 then false else st.allSuccess
      attempts := st.attempts ++ [(debianDir, r.1)]
      world := r.2 }

/-- Body of `buildAllPackages`. -/
def buildAllPackages {σ : Type} (attempt : σ → Str → Bool × σ) (w : σ)
    (entries : List DirEntry) : Batch σ :=
  entries.foldl (buildAllStep attempt) { allSuccess := true, attempts := [], world := w }

/-! ## Reference definitions, in the words of the specification -/

/-- First line of a text: everything before its first newline. -/
def firstLine (content : Str) : Str :=
  content.takeWhile (· != '\n')

/-- Text between the first '(' of a line and the first ')' after it, when
both exist. -/
def parenthesised (line : Str) : Option Str :=
  if '(' ∈ line then
    if ')' ∈ (line.dropWhile (· != '(')).tail then
      some ((line.dropWhile (· != '(')).tail.takeWhile (· != ')'))
    else none
  else none

/-- A line begins with the given field tag. -/
def startsWith (tag line : Str) : Bool :=
  line.take tag.length == tag

/-- Values of the field lines carrying `tag` among `lines`, in order. -/
def valuesIn (tag : Str) (lines : List Str) : List Str :=
  (lines.filter (startsWith tag)).map (List.drop tag.length)

/-- Values of the field lines of a control text carrying `tag`, in order. -/
def fieldValues (tag : Str) (control : Str) : List Str :=
  valuesIn tag (getlines control)

/-- The three-level fallback of the version: the parenthesised text of the
changelog's first line when it is non-empty, else the first non-empty value
of a `Version: ` line of the control text, else `0.1.0`. -/
def specVersion (changelog : Option Str) (control : Str) : Str :=
  match changelog.bind (fun c => parenthesised (firstLine c)) with
  | some (c :: v) => c :: v
  | _ =>
    match (fieldValues "Version: ".toList control).find? (fun v => !v.isEmpty) with
    | some v => v
    | none => "0.1.0".toList

/-- The control text has a field line carrying `tag`. -/
def hasField (tag : Str) (control : Str) : Bool :=
  (getlines control).any (startsWith tag)

/-- Value of the first field line of the control text carrying `tag`, empty
when there is none. -/
def firstValue (tag : Str) (control : Str) : Str :=
  ((fieldValues tag control).head?).getD []

/-- Value of the last field line of the control text carrying `tag`, empty
when there is none. -/
def lastValue (tag : Str) (control : Str) : Str :=
  ((fieldValues tag control).getLast?).getD []

/-- Flags that follow `dpkg-buildpackage`, composed as the specification
words it: binary-only; a parallel-jobs flag when the job count exceeds one;
the unsigned-build flags when signing is disabled, else a key flag when a
key is configured; the include-source flag for Quilt. -/
def specFlags (jobs : Int) (sign : Bool) (key : Str) (format : PackageType) : List Str :=
  ["-b".toList]
    ++ (if jobs > 1 then ["-j".toList ++ (Int.repr jobs).toList] else [])
    ++ (if sign = false then ["-us".toList, "-uc".toList, "--no-sign".toList]
        else if key ≠ [] then ["-k".toList ++ key] else [])
    ++ (if format = PackageType.Quilt then ["-sa".toList] else [])

/-- A command line: the program followed by its flags, each after a blank. -/
def withFlags (program : Str) (flags : List Str) : Str :=
  program ++ (flags.map (fun f => ' ' :: f)).flatten

/-- Every path attempted in turn, whatever the earlier results: the
attempts with their results, and the world afterwards. -/
def attemptAll {σ : Type} (attempt : σ → Str → Bool × σ) : σ → List Str → List (Str × Bool) × σ
  | w, [] => ([], w)
  | w, p :: ps =>
    ((p, (attempt w p).1) :: (attemptAll attempt (attempt w p).2 ps).1,
      (attemptAll attempt (attempt w p).2 ps).2)

/-- Paths of the entries that are directories, in iteration order. -/
def directories (entries : List DirEntry) : List Str :=
  (entries.filter (fun e => e.is_directory)).map (fun e => e.path)

/-- Paths of the entries that are directories holding a `debian`
subdirectory, in iteration order. -/
def packageDirectories (entries : List DirEntry) : List Str :=
  (entries.filter (fun e => e.is_directory && e.hasDebian)).map (fun e => e.path)

/-- Archive commands among the steps of a build. -/
def archiveCommands (events : List Event) : List Str :=
  events.filterMap (fun e => match e with
    | Event.archive cmd => some cmd
    | _ => none)

/-- Name of the upstream archive in the words of the specification:
`<packageName>_<upstreamVersion>.orig.tar.xz`, the upstream version being the
version up to its first hyphen. -/
def specArchiveName (packageName version : Str) : Str :=
  packageName ++ "_".toList ++ version.takeWhile (· != '-') ++ ".orig.tar.xz".toList

/-- The staging copy command of `build` (line 166). -/
def stagingCopyCmd (b : Builder) (sourceDir : Str) : Str :=
  "cp -r ".toList ++ sourceDir ++ "/* ".toList ++ b.m_tempDir

/-- Exit status the staging copy command returns in a run of `build` started
in world `s`. -/
def copyStatus {σ : Type} (env : Env σ) (b : Builder) (sourceDir : Str) (s : σ) : Int :=
  (env.system s (stagingCopyCmd b sourceDir)).1

/-- Exit status the archive command returns when it is issued right after
the staging copy. -/
def archiveStatus {σ : Type} (env : Env σ) (b : Builder) (sourceDir : Str) (s : σ) : Int :=
  (env.system (env.system s (stagingCopyCmd b sourceDir)).2 (buildTarCmd b)).1

/-- World in which the build backend is started: after the staging copy
for a native package, after the archive command otherwise. -/
def worldBeforeBackend {σ : Type} (env : Env σ) (b : Builder) (sourceDir : Str) (s : σ) : σ :=
  if b.isNativePackage then (env.system s (stagingCopyCmd b sourceDir)).2
  else (env.system (env.system s (stagingCopyCmd b sourceDir)).2 (buildTarCmd b)).2

/-- Exit status the `dpkg-buildpackage` command returns when it is issued
after the steps before it. -/
def backendStatus {σ : Type} (env : Env σ) (cfg : Config) (b : Builder) (sourceDir : Str)
    (s : σ) : Int :=
  (env.system (worldBeforeBackend env b sourceDir s) (buildCmd cfg b)).1

/-- Commands issued before the backend when none of them failed. -/
def stepsBeforeBackend (b : Builder) (sourceDir : Str) : List Event :=
  if b.isNativePackage then [Event.stagingCopy (stagingCopyCmd b sourceDir)]
  else [Event.stagingCopy (stagingCopyCmd b sourceDir), Event.archive (buildTarCmd b)]

/-- Artifact collection took place among the steps. -/
def collected (events : List Event) : Bool :=
  events.any (fun e => match e with
    | Event.collect _ => true
    | _ => false)

/-! ## Sample inputs -/

/-- Files of the end-to-end scenario of the specification, with a chosen
format marker. -/
def sampleView (marker : Option Str) : SourceView :=
  { changelog := some "foo (1.0-1) unstable; urgency=low\n".toList
    stagingThrows := false
    stagedChangelog := some "foo (1.0-1) unstable; urgency=low\n".toList
    stagedControl := some
      "Source: foo\nPackage: foo\nArchitecture: amd64\nMaintainer: A <a@b.c>\nDescription: test".toList
    stagedFormat := marker }

/-- Object the constructor returns for `sampleView` under the initial
configuration. -/
def sampleBuilder (format : PackageType) : Builder :=
  { m_packageName := "foo".toList
    m_version := "1.0-1".toList
    m_architecture := "amd64".toList
    m_maintainer := "A <a@b.c>".toList
    m_description := "test".toList
    m_packageType := format
    m_tempDir := ".build_deb_lingmo/foo".toList }

/-- Files of a package directory named `name` at version `1.0-1`. -/
def packageView (name : Str) : SourceView :=
  { changelog := some (name ++ " (1.0-1) unstable; urgency=low\n".toList)
    stagingThrows := false
    stagedChangelog := some (name ++ " (1.0-1) unstable; urgency=low\n".toList)
    stagedControl := some ("Source: ".toList ++ name ++ "\nPackage: ".toList ++ name
      ++ "\nArchitecture: all\n".toList)
    stagedFormat := none }

/-- What the constructor finds in a directory without a `debian`
subdirectory: no changelog can be opened. -/
def emptyView : SourceView :=
  { changelog := none, stagingThrows := false, stagedChangelog := none,
    stagedControl := none, stagedFormat := none }

/-- A source root with five subdirectories, three of which hold a `debian`
subdirectory. -/
def sampleRoot : List DirEntry :=
  [ { path := "src/a".toList, is_directory := true, hasDebian := true },
    { path := "src/b".toList, is_directory := true, hasDebian := true },
    { path := "src/c".toList, is_directory := true, hasDebian := true },
    { path := "src/d".toList, is_directory := true, hasDebian := false },
    { path := "src/e".toList, is_directory := true, hasDebian := false } ]

/-- The constructor's reads under `sampleRoot`. -/
def sampleLookup (sourceDir : Str) : SourceView :=
  if sourceDir = "src/a".toList then packageView "a".toList
  else if sourceDir = "src/b".toList then packageView "b".toList
  else if sourceDir = "src/c".toList then packageView "c".toList
  else emptyView

/-- A world in which every command exits with status 0 and no file-system
step throws. -/
def calmWorld : Env Unit :=
  { system := fun s _ => (0, s), fs := fun s _ => (true, s) }

/-- A world in which every command exits with status 1. -/
def failingWorld : Env Unit :=
  { system := fun s _ => (1, s), fs := fun s _ => (true, s) }

/-- The batch attempt of `main` in the calm world under `sampleRoot`. -/
def sampleAttempt (w : Unit) (sourceDir : Str) : Bool × Unit :=
  ((buildFromDirectory calmWorld Config.default sampleLookup PackageType.Native w sourceDir).result,
   (buildFromDirectory calmWorld Config.default sampleLookup PackageType.Native w sourceDir).world)

/-- A world that counts the commands issued so far, in which the command
number `k` (from 0) exits with status 2 and every other one with status 0. -/
def failAt (k : Nat) : Env Nat :=
  { system := fun n _ => (if n = k then 2 else 0, n + 1), fs := fun n _ => (true, n) }

/-! ## Strings and streams: basic facts -/

theorem find_eq_none_iff (s : Str) (c : Char) : find s c = none ↔ c ∉ s := by
  induction s with
  | nil => simp [find]
  | cons x xs ih =>
    by_cases h : x = c
    · simp [find, h]
    · simp [find, h, ih, Ne.symm h]

theorem find_some_takeWhile (s : Str) (c : Char) (i : Nat) (h : find s c = some i) :
    s.take i = s.takeWhile (· != c) ∧ s.drop i = c :: (s.dropWhile (· != c)).tail ∧ c ∈ s := by
  induction s generalizing i with
  | nil => simp [find] at h
  | cons x xs ih =>
    by_cases hx : x = c
    · simp [find, hx] at h
      subst h
      simp [hx, List.takeWhile_cons, List.dropWhile_cons]
    · simp only [find, hx, if_false, Option.map_eq_some'] at h
      obtain ⟨j, hj, rfl⟩ := h
      obtain ⟨h1, h2, h3⟩ := ih j hj
      simp [List.takeWhile_cons, List.dropWhile_cons, hx, h1, h2, h3]

theorem getlinesAux_head (cur s : Str) :
    (getlinesAux cur s).head? =
      if cur = [] ∧ s = [] then none else some (cur ++ s.takeWhile (· != '\n')) := by
  induction s generalizing cur with
  | nil => cases cur <;> simp [getlinesAux]
  | cons c rest ih =>
    by_cases hc : c = '\n'
    · simp [getlinesAux, hc, List.takeWhile_cons]
    · simp [getlinesAux, hc, List.takeWhile_cons, ih]

theorem getline_eq (content : Str) :
    getline content = if content = [] then none else some (firstLine content) := by
  simp [getline, getlines, getlinesAux_head, firstLine]

/-! ## Changelog parsing -/

theorem changelog_extract (line : Str) :
    (match find line '(' with
      | none => (none : Option Str)
      | some start =>
        match findFrom line ')' start with
        | none => none
        | some stop => some (substr line (start + 1) (stop - start - 1))) = parenthesised line := by
  cases h1 : find line '(' with
  | none =>
    have := (find_eq_none_iff line '(').1 h1
    simp [parenthesised, this]
  | some start =>
    obtain ⟨_, hd, hm⟩ := find_some_takeWhile line '(' start h1
    have hfind : find (line.drop start) ')' =
        (find ((line.dropWhile (· != '(')).tail) ')').map (· + 1) := by
      rw [hd]; simp [find]
    have hdrop : line.drop (start + 1) = (line.dropWhile (· != '(')).tail := by
      have : line.drop (start + 1) = (line.drop start).drop 1 := by
        rw [List.drop_drop, Nat.add_comm]
      rw [this, hd]; rfl
    cases h2 : find ((line.dropWhile (· != '(')).tail) ')' with
    | none =>
      have := (find_eq_none_iff _ ')').1 h2
      simp [parenthesised, hm, findFrom, hfind, h2, this]
    | some j =>
      obtain ⟨ht, _, hm2⟩ := find_some_takeWhile _ ')' j h2
      simp only [parenthesised, hm, findFrom, hfind, h2, Option.map_some', substr, hdrop, hm2,
        if_true]
      have : j + 1 + start - start - 1 = j := by omega
      rw [this, ht]

theorem parseChangelogFile_eq (b : Builder) (changelog : Option Str) :
    parseChangelogFile b changelog =
      match changelog.bind (fun c => parenthesised (firstLine c)) with
      | some v => (true, { b with m_version := v })
      | none => (false, b) := by
  cases changelog with
  | none => rfl
  | some content =>
    by_cases hc : content = []
    · subst hc
      simp [parseChangelogFile, getline_eq, firstLine, parenthesised]
    · have key := changelog_extract (firstLine content)
      simp only [parseChangelogFile, getline_eq, hc, if_false, Option.bind]
      rw [← key]
      cases find (firstLine content) '(' with
      | none => rfl
      | some start =>
        dsimp only
        cases findFrom (firstLine content) ')' start <;> rfl

/-! ## Control parsing -/

theorem startsWith_head (a : Char) (tag : Str) (c0 : Char) (t : Str)
    (h : startsWith (a :: tag) (c0 :: t) = true) : c0 = a := by
  simp [startsWith] at h
  exact h.1

theorem startsWith_nil (a : Char) (tag : Str) : startsWith (a :: tag) [] = false := by
  simp [startsWith]

/-- The guards of the line loop never hide a field line: a line that is
empty, a comment or indented carries none of the six tags. -/
theorem controlLine_eq (b : Builder) (foundSource : Bool) (line : Str) :
    controlLine b foundSource line =
      if startsWith "Package: ".toList line then
        ({ b with m_packageName := line.drop 9 }, foundSource)
      else if startsWith "Version: ".toList line then
        if b.m_version.isEmpty then ({ b with m_version := line.drop 9 }, foundSource)
        else (b, foundSource)
      else if startsWith "Architecture: ".toList line then
        ({ b with m_architecture := line.drop 14 }, foundSource)
      else if startsWith "Maintainer: ".toList line then
        ({ b with m_maintainer := line.drop 12 }, foundSource)
      else if startsWith "Description: ".toList line then
        ({ b with m_description := line.drop 13 }, foundSource)
      else if startsWith "Source: ".toList line then (b, true)
      else (b, foundSource) := by
  cases line with
  | nil => simp [controlLine, startsWith]
  | cons c0 t =>
    have hP := startsWith_head 'P' "ackage: ".toList c0 t
    have hV := startsWith_head 'V' "ersion: ".toList c0 t
    have hA := startsWith_head 'A' "rchitecture: ".toList c0 t
    have hM := startsWith_head 'M' "aintainer: ".toList c0 t
    have hD := startsWith_head 'D' "escription: ".toList c0 t
    have hS := startsWith_head 'S' "ource: ".toList c0 t
    by_cases h1 : c0 = '#'
    · subst h1
      simp [controlLine, startsWith]
    · by_cases h2 : isspace c0 = true
      · have nP : startsWith "Package: ".toList (c0 :: t) = false := by
          cases hh : startsWith "Package: ".toList (c0 :: t) with
          | false => rfl
          | true => rw [hP hh] at h2; exact absurd h2 (by decide)
        have nV : startsWith "Version: ".toList (c0 :: t) = false := by
          cases hh : startsWith "Version: ".toList (c0 :: t) with
          | false => rfl
          | true => rw [hV hh] at h2; exact absurd h2 (by decide)
        have nA : startsWith "Architecture: ".toList (c0 :: t) = false := by
          cases hh : startsWith "Architecture: ".toList (c0 :: t) with
          | false => rfl
          | true => rw [hA hh] at h2; exact absurd h2 (by decide)
        have nM : startsWith "Maintainer: ".toList (c0 :: t) = false := by
          cases hh : startsWith "Maintainer: ".toList (c0 :: t) with
          | false => rfl
          | true => rw [hM hh] at h2; exact absurd h2 (by decide)
        have nD : startsWith "Description: ".toList (c0 :: t) = false := by
          cases hh : startsWith "Description: ".toList (c0 :: t) with
          | false => rfl
          | true => rw [hD hh] at h2; exact absurd h2 (by decide)
        have nS : startsWith "Source: ".toList (c0 :: t) = false := by
          cases hh : startsWith "Source: ".toList (c0 :: t) with
          | false => rfl
          | true => rw [hS hh] at h2; exact absurd h2 (by decide)
        rw [nP, nV, nA, nM, nD, nS]
        simp [controlLine, h1, h2]
      · simp only [controlLine, h1, h2, if_false, Bool.not_false, if_true, Bool.false_eq_true,
          Bool.not_eq_true, substrFrom]
        rfl

theorem startsWith_excl (a a1 : Char) (tag tag1 : Str) (hne : a ≠ a1) (line : Str)
    (h : startsWith (a :: tag) line = true) : startsWith (a1 :: tag1) line = false := by
  cases line with
  | nil => exact startsWith_nil a1 tag1
  | cons c0 t =>
    cases hh : startsWith (a1 :: tag1) (c0 :: t) with
    | false => rfl
    | true =>
      exact absurd ((startsWith_head a tag c0 t h).symm.trans (startsWith_head a1 tag1 c0 t hh)) hne

theorem controlLine_packageName (b : Builder) (fs : Bool) (l : Str) :
    (controlLine b fs l).1.m_packageName =
      if startsWith "Package: ".toList l then l.drop "Package: ".toList.length
      else b.m_packageName := by
  rw [controlLine_eq]
  split_ifs <;> rfl

theorem controlLine_version (b : Builder) (fs : Bool) (l : Str) :
    (controlLine b fs l).1.m_version =
      if startsWith "Version: ".toList l then
        (if b.m_version.isEmpty then l.drop "Version: ".toList.length else b.m_version)
      else b.m_version := by
  rw [controlLine_eq]
  by_cases hV : startsWith "Version: ".toList l = true
  · have nP := startsWith_excl 'V' 'P' "ersion: ".toList "ackage: ".toList (by decide) l hV
    rw [if_neg (by simpa using nP), if_pos hV, if_pos hV]
    split_ifs <;> rfl
  · rw [if_neg hV]
    split_ifs <;> rfl

theorem controlLine_architecture (b : Builder) (fs : Bool) (l : Str) :
    (controlLine b fs l).1.m_architecture =
      if startsWith "Architecture: ".toList l then l.drop "Architecture: ".toList.length
      else b.m_architecture := by
  rw [controlLine_eq]
  by_cases hA : startsWith "Architecture: ".toList l = true
  · have nP := startsWith_excl 'A' 'P' "rchitecture: ".toList "ackage: ".toList (by decide) l hA
    have nV := startsWith_excl 'A' 'V' "rchitecture: ".toList "ersion: ".toList (by decide) l hA
    rw [if_neg (by simpa using nP), if_neg (by simpa using nV), if_pos hA, if_pos hA]
    rfl
  · rw [if_neg hA]
    split_ifs <;> rfl

theorem controlLine_maintainer (b : Builder) (fs : Bool) (l : Str) :
    (controlLine b fs l).1.m_maintainer =
      if startsWith "Maintainer: ".toList l then l.drop "Maintainer: ".toList.length
      else b.m_maintainer := by
  rw [controlLine_eq]
  by_cases hM : startsWith "Maintainer: ".toList l = true
  · have nP := startsWith_excl 'M' 'P' "aintainer: ".toList "ackage: ".toList (by decide) l hM
    have nV := startsWith_excl 'M' 'V' "aintainer: ".toList "ersion: ".toList (by decide) l hM
    have nA := startsWith_excl 'M' 'A' "aintainer: ".toList "rchitecture: ".toList (by decide) l hM
    rw [if_neg (by simpa using nP), if_neg (by simpa using nV), if_neg (by simpa using nA),
      if_pos hM, if_pos hM]
    rfl
  · rw [if_neg hM]
    split_ifs <;> rfl

theorem controlLine_description (b : Builder) (fs : Bool) (l : Str) :
    (controlLine b fs l).1.m_description =
      if startsWith "Description: ".toList l then l.drop "Description: ".toList.length
      else b.m_description := by
  rw [controlLine_eq]
  by_cases hD : startsWith "Description: ".toList l = true
  · have nP := startsWith_excl 'D' 'P' "escription: ".toList "ackage: ".toList (by decide) l hD
    have nV := startsWith_excl 'D' 'V' "escription: ".toList "ersion: ".toList (by decide) l hD
    have nA := startsWith_excl 'D' 'A' "escription: ".toList "rchitecture: ".toList (by decide) l hD
    have nM := startsWith_excl 'D' 'M' "escription: ".toList "aintainer: ".toList (by decide) l hD
    rw [if_neg (by simpa using nP), if_neg (by simpa using nV), if_neg (by simpa using nA),
      if_neg (by simpa using nM), if_pos hD, if_pos hD]
    rfl
  · rw [if_neg hD]
    split_ifs <;> rfl

theorem controlLine_foundSource (b : Builder) (fs : Bool) (l : Str) :
    (controlLine b fs l).2 = (fs || startsWith "Source: ".toList l) := by
  rw [controlLine_eq]
  by_cases hS : startsWith "Source: ".toList l = true
  · have nP := startsWith_excl 'S' 'P' "ource: ".toList "ackage: ".toList (by decide) l hS
    have nV := startsWith_excl 'S' 'V' "ource: ".toList "ersion: ".toList (by decide) l hS
    have nA := startsWith_excl 'S' 'A' "ource: ".toList "rchitecture: ".toList (by decide) l hS
    have nM := startsWith_excl 'S' 'M' "ource: ".toList "aintainer: ".toList (by decide) l hS
    have nD := startsWith_excl 'S' 'D' "ource: ".toList "escription: ".toList (by decide) l hS
    rw [if_neg (by simpa using nP), if_neg (by simpa using nV), if_neg (by simpa using nA),
      if_neg (by simpa using nM), if_neg (by simpa using nD), if_pos hS, hS]
    simp
  · have hS2 : startsWith "Source: ".toList l = false := by simpa using hS
    rw [hS2]
    simp only [Bool.false_eq_true, if_false, Bool.or_false]
    split_ifs <;> rfl

theorem controlLine_fixed (b : Builder) (fs : Bool) (l : Str) :
    (controlLine b fs l).1.m_packageType = b.m_packageType ∧
      (controlLine b fs l).1.m_tempDir = b.m_tempDir := by
  rw [controlLine_eq]
  split_ifs <;> exact ⟨rfl, rfl⟩

theorem getLast_getD_cons (a d : Str) (xs : List Str) :
    ((a :: xs).getLast?).getD d = (xs.getLast?).getD a := by
  cases xs with
  | nil => rfl
  | cons x t =>
    rw [List.getLast?_cons_cons, List.getLast?_eq_getLast _ (List.cons_ne_nil x t)]
    rfl

/-- A member that every line carrying `tag` overwrites, and no other line
touches, ends up holding the value of the last such line. -/
theorem controlLoop_lastWins (get : Builder → Str) (tag : Str)
    (hstep : ∀ b fs l, get (controlLine b fs l).1 =
      if startsWith tag l then l.drop tag.length else get b)
    (lines : List Str) (b : Builder) (fs : Bool) :
    get (controlLoop b fs lines).1 = ((valuesIn tag lines).getLast?).getD (get b) := by
  induction lines generalizing b fs with
  | nil => rfl
  | cons l rest ih =>
    rw [controlLoop, ih, hstep]
    by_cases h : startsWith tag l = true
    · simp [valuesIn, List.filter_cons, h, getLast_getD_cons]
    · simp [valuesIn, List.filter_cons, h]

theorem valuesIn_cons (tag l : Str) (rest : List Str) :
    valuesIn tag (l :: rest) =
      if startsWith tag l then l.drop tag.length :: valuesIn tag rest else valuesIn tag rest := by
  unfold valuesIn
  rw [List.filter_cons]
  split_ifs <;> rfl

theorem controlLoop_version (lines : List Str) (b : Builder) (fs : Bool) :
    (controlLoop b fs lines).1.m_version =
      if b.m_version.isEmpty then
        ((valuesIn "Version: ".toList lines).find? (fun v => !v.isEmpty)).getD []
      else b.m_version := by
  induction lines generalizing b fs with
  | nil =>
    show b.m_version = _
    cases h : b.m_version with
    | nil => rfl
    | cons c v => rfl
  | cons l rest ih =>
    rw [controlLoop, ih, controlLine_version, valuesIn_cons]
    by_cases hV : startsWith "Version: ".toList l = true
    · rw [if_pos hV, if_pos hV]
      by_cases hb : b.m_version.isEmpty = true
      · rw [if_pos hb, if_pos hb, List.find?_cons]
        cases hl : (List.drop "Version: ".toList.length l).isEmpty with
        | true => simp only [Bool.not_true, if_true]
        | false => simp only [Bool.not_false, Bool.false_eq_true, if_false, Option.getD_some]
      · rw [if_neg hb, if_neg hb, if_neg hb]
    · rw [if_neg hV, if_neg hV]

theorem controlLoop_foundSource (lines : List Str) (b : Builder) (fs : Bool) :
    (controlLoop b fs lines).2 = (fs || lines.any (startsWith "Source: ".toList)) := by
  induction lines generalizing b fs with
  | nil => simp [controlLoop]
  | cons l rest ih =>
    rw [controlLoop, ih, controlLine_foundSource]
    simp [Bool.or_assoc]

theorem controlLoop_fixed (lines : List Str) (b : Builder) (fs : Bool) :
    (controlLoop b fs lines).1.m_packageType = b.m_packageType ∧
      (controlLoop b fs lines).1.m_tempDir = b.m_tempDir := by
  induction lines generalizing b fs with
  | nil => exact ⟨rfl, rfl⟩
  | cons l rest ih =>
    rw [controlLoop]
    obtain ⟨h1, h2⟩ := ih (controlLine b fs l).1 (controlLine b fs l).2
    obtain ⟨h3, h4⟩ := controlLine_fixed b fs l
    exact ⟨h1.trans h3, h2.trans h4⟩

theorem controlValidate_version (b : Builder) (fs : Bool) :
    (controlValidate b fs).2.m_version =
      if b.m_version.isEmpty then "0.1.0".toList else b.m_version := by
  simp only [controlValidate]
  split_ifs <;> rfl

theorem parseControlFile_version (b : Builder) (control : Str) :
    (parseControlFile b (some control)).2.m_version =
      if b.m_version.isEmpty then
        match (fieldValues "Version: ".toList control).find? (fun v => !v.isEmpty) with
        | some v => v
        | none => "0.1.0".toList
      else b.m_version := by
  simp only [parseControlFile, controlValidate_version, controlLoop_version, fieldValues]
  by_cases hb : b.m_version.isEmpty = true
  · simp only [hb, if_true]
    cases hf : (valuesIn "Version: ".toList (getlines control)).find? (fun v => !v.isEmpty) with
    | none => simp
    | some v =>
      have := List.find?_some hf
      simp at this
      simp [this]
  · simp [hb]

/-! ## C1: version resolution -/

theorem resolved_version_eq (type : PackageType) (tempDir : Str) (changelog : Option Str)
    (control : Str) :
    (parseControlFile (parseChangelogFile (Builder.fresh type tempDir) changelog).2
      (some control)).2.m_version = specVersion changelog control := by
  rw [parseControlFile_version, parseChangelogFile_eq, specVersion]
  cases changelog.bind (fun c => parenthesised (firstLine c)) with
  | none => rfl
  | some v =>
    cases v with
    | nil => rfl
    | cons c v => rfl

/-- C1: the version held after parsing the changelog and then the control
file is the three-level fallback: the text between the first '(' of the
changelog's first line and the first ')' after it when that text exists and is
non-empty, otherwise the first non-empty value of a `Version: ` line of the
control text, otherwise `0.1.0`.  This holds for every changelog and control
text, in particular for those on which control parsing succeeds; the two
scenarios of the specification follow. -/
theorem version_resolution_fallback :
    (∀ (type : PackageType) (tempDir : Str) (changelog : Option Str) (control : Str),
      (parseControlFile (parseChangelogFile (Builder.fresh type tempDir) changelog).2
        (some control)).2.m_version = specVersion changelog control) ∧
    (∀ (type : PackageType) (tempDir : Str) (control : Str),
      (parseControlFile (parseChangelogFile (Builder.fresh type tempDir)
          (some "foo (1.0-1) unstable; urgency=low".toList)).2
        (some control)).2.m_version = "1.0-1".toList) ∧
    (∀ (type : PackageType) (tempDir : Str) (changelog control : Str),
      '(' ∉ firstLine changelog → fieldValues "Version: ".toList control = [] →
      (parseControlFile (parseChangelogFile (Builder.fresh type tempDir) (some changelog)).2
        (some control)).2.m_version = "0.1.0".toList) := by
  refine ⟨resolved_version_eq, ?_, ?_⟩
  · intro type tempDir control
    rw [resolved_version_eq]
    have h : parenthesised (firstLine "foo (1.0-1) unstable; urgency=low".toList)
        = some "1.0-1".toList := by decide
    simp only [specVersion, Option.bind, h]
    rfl
  · intro type tempDir changelog control hno hv
    rw [resolved_version_eq]
    simp only [specVersion, Option.bind, parenthesised, hno, if_false, hv, List.find?_nil]

/-- Witness for C1: a changelog without parenthesis and a control file
without a `Version: ` line resolve to `0.1.0`, and the changelog version
`1.0-1` wins over `Version: 2.0`. -/
theorem version_resolution_fallback_witness :
    (parseControlFile (parseChangelogFile (Builder.fresh PackageType.Native [])
        (some "foo unstable; urgency=low".toList)).2
      (some "Package: foo\nArchitecture: all\n".toList)).2.m_version = "0.1.0".toList ∧
    (parseControlFile (parseChangelogFile (Builder.fresh PackageType.Native [])
        (some "foo (1.0-1) unstable; urgency=low".toList)).2
      (some "Package: foo\nVersion: 2.0\nArchitecture: all\n".toList)).2.m_version
        = "1.0-1".toList :=
  ⟨version_resolution_fallback.2.2 PackageType.Native [] _ _ (by decide) (by decide),
    version_resolution_fallback.2.1 PackageType.Native [] _⟩

/-! ## What `parseControlFile` stores -/

theorem valuesIn_eq_nil (tag : Str) (lines : List Str)
    (h : lines.any (startsWith tag) = false) : valuesIn tag lines = [] := by
  induction lines with
  | nil => rfl
  | cons l rest ih =>
    rw [List.any_cons, Bool.or_eq_false_iff] at h
    rw [valuesIn_cons, h.1, ih h.2]
    rfl

theorem controlValidate_fields (b : Builder) (fs : Bool) :
    (controlValidate b fs).1 = (!b.m_packageName.isEmpty && (!b.m_architecture.isEmpty || fs)) ∧
    (controlValidate b fs).2.m_architecture =
      (if b.m_architecture.isEmpty then (if fs then "all".toList else []) else b.m_architecture) ∧
    (controlValidate b fs).2.m_packageName = b.m_packageName ∧
    (controlValidate b fs).2.m_maintainer = b.m_maintainer ∧
    (controlValidate b fs).2.m_description = b.m_description ∧
    (controlValidate b fs).2.m_packageType = b.m_packageType ∧
    (controlValidate b fs).2.m_tempDir = b.m_tempDir := by
  obtain ⟨n, v, a, m, d, t, td⟩ := b
  cases v <;> cases a <;> cases fs <;> simp [controlValidate]

/-- Everything `parseControlFile` leaves in the object, in terms of the
field lines of the control text. -/
theorem parseControlFile_fields (b : Builder) (control : Str) :
    (parseControlFile b (some control)).1 =
      (!(lastValue "Package: ".toList control).isEmpty &&
        (!(lastValue "Architecture: ".toList control).isEmpty ||
          hasField "Source: ".toList control)) ∧
    (parseControlFile b (some control)).2.m_architecture =
      (if (lastValue "Architecture: ".toList control).isEmpty then
        (if hasField "Source: ".toList control then "all".toList else [])
       else lastValue "Architecture: ".toList control) ∧
    (parseControlFile b (some control)).2.m_packageName = lastValue "Package: ".toList control ∧
    (parseControlFile b (some control)).2.m_maintainer =
      lastValue "Maintainer: ".toList control ∧
    (parseControlFile b (some control)).2.m_description =
      lastValue "Description: ".toList control ∧
    (parseControlFile b (some control)).2.m_packageType = b.m_packageType ∧
    (parseControlFile b (some control)).2.m_tempDir = b.m_tempDir := by
  obtain ⟨v1, v2, v3, v4, v5, v6, v7⟩ := controlValidate_fields
    (controlLoop { b with m_packageName := [], m_architecture := [],
                          m_maintainer := [], m_description := [] } false (getlines control)).1
    (controlLoop { b with m_packageName := [], m_architecture := [],
                          m_maintainer := [], m_description := [] } false (getlines control)).2
  have hP := controlLoop_lastWins (fun x => x.m_packageName) "Package: ".toList
    controlLine_packageName (getlines control)
    { b with m_packageName := [], m_architecture := [], m_maintainer := [], m_description := [] }
    false
  have hA := controlLoop_lastWins (fun x => x.m_architecture) "Architecture: ".toList
    controlLine_architecture (getlines control)
    { b with m_packageName := [], m_architecture := [], m_maintainer := [], m_description := [] }
    false
  have hM := controlLoop_lastWins (fun x => x.m_maintainer) "Maintainer: ".toList
    controlLine_maintainer (getlines control)
    { b with m_packageName := [], m_architecture := [], m_maintainer := [], m_description := [] }
    false
  have hD := controlLoop_lastWins (fun x => x.m_description) "Description: ".toList
    controlLine_description (getlines control)
    { b with m_packageName := [], m_architecture := [], m_maintainer := [], m_description := [] }
    false
  have hS := controlLoop_foundSource (getlines control)
    { b with m_packageName := [], m_architecture := [], m_maintainer := [], m_description := [] }
    false
  have hF := controlLoop_fixed (getlines control)
    { b with m_packageName := [], m_architecture := [], m_maintainer := [], m_description := [] }
    false
  simp only [Bool.false_or] at hS
  simp only [] at hP hA hM hD
  simp only [parseControlFile, lastValue, fieldValues, hasField]
  rw [v1, v2, v3, v4, v5, v6, v7, hP, hA, hM, hD, hS, hF.1, hF.2]
  exact ⟨rfl, rfl, rfl, rfl, rfl, rfl, rfl⟩

theorem lastValue_eq_nil (tag control : Str) (h : hasField tag control = false) :
    lastValue tag control = [] := by
  unfold lastValue fieldValues
  rw [valuesIn_eq_nil tag (getlines control) h]
  rfl

theorem construct_control_rejected (cfg : Config) (src : SourceView) (type : PackageType)
    (control : Str) (hc : src.stagedControl = some control)
    (hrej : ∀ b, (parseControlFile b (some control)).1 = false) (bld : Builder) :
    construct cfg src type ≠ .ok bld := by
  unfold construct
  cases src.changelog with
  | none => simp
  | some content =>
    simp only [hc, hrej, Bool.not_false, if_true]
    split_ifs <;> simp

/-! ## C2: architecture defaulting -/

/-- C2 as stated fails: the control text below has a `Package: ` line with
the non-empty value `foo`, a `Source: ` line and no `Architecture: ` line,
yet `parseControlFile` returns false, because the later empty `Package: `
line has overwritten the name. -/
theorem architecture_defaulting_counterexample :
    (fieldValues "Package: ".toList "Package: foo\nPackage: \nSource: foo\n".toList).any
        (fun v => !v.isEmpty) = true ∧
      hasField "Source: ".toList "Package: foo\nPackage: \nSource: foo\n".toList = true ∧
      hasField "Architecture: ".toList "Package: foo\nPackage: \nSource: foo\n".toList = false ∧
      (parseControlFile (Builder.fresh PackageType.Native [])
        (some "Package: foo\nPackage: \nSource: foo\n".toList)).1 = false := by
  decide

/-- C2, amended: for every control text whose last `Package: ` line has a
non-empty value, a `Source: ` line without any `Architecture: ` line makes
`parseControlFile` succeed with architecture `all`, and the absence of both
makes it return false, upon which the constructor throws instead of
returning an object. -/
theorem architecture_defaulting (b : Builder) (control : Str)
    (hpkg : lastValue "Package: ".toList control ≠ []) :
    (hasField "Source: ".toList control = true →
      hasField "Architecture: ".toList control = false →
      (parseControlFile b (some control)).1 = true ∧
        (parseControlFile b (some control)).2.m_architecture = "all".toList) ∧
    (hasField "Source: ".toList control = false →
      hasField "Architecture: ".toList control = false →
      (parseControlFile b (some control)).1 = false ∧
        ∀ (cfg : Config) (src : SourceView) (type : PackageType),
          src.stagedControl = some control → ∀ bld, construct cfg src type ≠ .ok bld) := by
  constructor
  · intro hS hA
    obtain ⟨h1, h2, _⟩ := parseControlFile_fields b control
    rw [h1, h2, lastValue_eq_nil _ _ hA, hS]
    cases hp : lastValue "Package: ".toList control with
    | nil => exact absurd hp hpkg
    | cons c v => exact ⟨rfl, rfl⟩
  · intro hS hA
    have hrej : ∀ b1, (parseControlFile b1 (some control)).1 = false := by
      intro b1
      rw [(parseControlFile_fields b1 control).1, lastValue_eq_nil _ _ hA, hS]
      simp
    exact ⟨hrej b, fun cfg src type hc bld => construct_control_rejected cfg src type control hc hrej bld⟩

/-- Witness for C2: with `Source: foo` and `Package: foo` the architecture
is `all`; with `Package: foo` alone parsing fails. -/
theorem architecture_defaulting_witness :
    ((parseControlFile (Builder.fresh PackageType.Native [])
        (some "Source: foo\nPackage: foo\n".toList)).1 = true ∧
      (parseControlFile (Builder.fresh PackageType.Native [])
        (some "Source: foo\nPackage: foo\n".toList)).2.m_architecture = "all".toList) ∧
    (parseControlFile (Builder.fresh PackageType.Native [])
        (some "Package: foo\n".toList)).1 = false :=
  ⟨(architecture_defaulting (Builder.fresh PackageType.Native [])
      "Source: foo\nPackage: foo\n".toList (by decide)).1 (by decide) (by decide),
   ((architecture_defaulting (Builder.fresh PackageType.Native [])
      "Package: foo\n".toList (by decide)).2 (by decide) (by decide)).1⟩

/-! ## C3: duplicate fields -/

/-- C3 as stated fails: with two `Package: ` lines the stored name is the
value of the second line, not of the first; and with an empty first
`Version: ` line the stored version is the value of the second one. -/
theorem first_occurrence_counterexample :
    (firstValue "Package: ".toList "Package: one\nPackage: two\nArchitecture: all\n".toList
        = "one".toList ∧
      (parseControlFile (Builder.fresh PackageType.Native [])
        (some "Package: one\nPackage: two\nArchitecture: all\n".toList)).2.m_packageName
        = "two".toList) ∧
    (firstValue "Version: ".toList "Version: \nVersion: 2.0\n".toList = [] ∧
      (parseControlFile (Builder.fresh PackageType.Native [])
        (some "Version: \nVersion: 2.0\n".toList)).2.m_version = "2.0".toList) := by
  decide

/-- C3, amended: in control-file parsing the last occurrence of each of
Package, Architecture, Maintainer and Description wins: the stored value is
the value of the last line of that field (an empty or missing architecture
becomes `all` when a `Source: ` line is present).  For Version, when the
object holds no version yet, the stored value is that of the first
`Version: ` line with a non-empty value, `0.1.0` if there is none; a version
already held is kept. -/
theorem last_occurrence_wins (b : Builder) (control : Str) :
    (parseControlFile b (some control)).2.m_packageName = lastValue "Package: ".toList control ∧
    (parseControlFile b (some control)).2.m_maintainer =
      lastValue "Maintainer: ".toList control ∧
    (parseControlFile b (some control)).2.m_description =
      lastValue "Description: ".toList control ∧
    (parseControlFile b (some control)).2.m_architecture =
      (if (lastValue "Architecture: ".toList control).isEmpty then
        (if hasField "Source: ".toList control then "all".toList else [])
       else lastValue "Architecture: ".toList control) ∧
    (parseControlFile b (some control)).2.m_version =
      (if b.m_version.isEmpty then
        match (fieldValues "Version: ".toList control).find? (fun v => !v.isEmpty) with
        | some v => v
        | none => "0.1.0".toList
       else b.m_version) := by
  obtain ⟨_, h2, h3, h4, h5, _⟩ := parseControlFile_fields b control
  exact ⟨h3, h4, h5, h2, parseControlFile_version b control⟩

/-! ## The constructor -/

theorem parseChangelogFile_fixed (b : Builder) (changelog : Option Str) :
    (parseChangelogFile b changelog).2.m_packageType = b.m_packageType ∧
      (parseChangelogFile b changelog).2.m_tempDir = b.m_tempDir := by
  rw [parseChangelogFile_eq]
  cases changelog.bind (fun c => parenthesised (firstLine c)) <;> exact ⟨rfl, rfl⟩

theorem parseControlFile_fixed (b : Builder) (control : Option Str) :
    (parseControlFile b control).2.m_packageType = b.m_packageType ∧
      (parseControlFile b control).2.m_tempDir = b.m_tempDir := by
  cases control with
  | none => exact ⟨rfl, rfl⟩
  | some c =>
    obtain ⟨_, _, _, _, _, h6, h7⟩ := parseControlFile_fields b c
    exact ⟨h6, h7⟩

/-- What a successfully constructed object holds: the name token of the
changelog as name, the staging path built from it, and the classified
format. -/
theorem construct_ok (cfg : Config) (src : SourceView) (type : PackageType) (b : Builder)
    (h : construct cfg src type = .ok b) :
    ∃ content, src.changelog = some content ∧ correctNameOf content ≠ [] ∧
      b.m_packageName = correctNameOf content ∧
      b.m_tempDir = pathAppend cfg.s_buildDir (correctNameOf content) ∧
      b.m_packageType = classifyFormat type src.stagedFormat := by
  unfold construct at h
  cases hcl : src.changelog with
  | none => simp [hcl] at h
  | some content =>
    simp only [hcl] at h
    split_ifs at h with h1 h2 h3
    injection h with h
    subst h
    refine ⟨content, rfl, ?_, rfl, ?_, ?_⟩
    · intro hn
      rw [hn] at h1
      exact h1 rfl
    · show (parseControlFile _ _).2.m_tempDir = _
      rw [(parseControlFile_fixed _ _).2, (parseChangelogFile_fixed _ _).2]
      rfl
    · show classifyFormat (parseControlFile _ _).2.m_packageType _ = _
      rw [(parseControlFile_fixed _ _).1, (parseChangelogFile_fixed _ _).1]
      rfl

theorem classifyFormat_eq (type : PackageType) (content : Str) :
    classifyFormat type (some content) =
      if firstLine content = "3.0 (quilt)".toList then PackageType.Quilt
      else if firstLine content = "3.0 (native)".toList then PackageType.Native
      else type := by
  have h : (getline content).getD [] = firstLine content := by
    rw [getline_eq]
    by_cases hc : content = []
    · subst hc; rfl
    · rw [if_neg hc]; rfl
  simp only [classifyFormat, h]

/-! ## C4: format classification -/

/-- C4: for every default format `d` and every state of the marker file, a
successfully constructed object has format Quilt when the marker exists and
its first line is exactly `3.0 (quilt)`, Native when it is exactly
`3.0 (native)`, and `d` when the marker is missing or its first line is
anything else. -/
theorem format_classification (cfg : Config) (src : SourceView) (d : PackageType) (b : Builder)
    (h : construct cfg src d = .ok b) :
    (∀ content, src.stagedFormat = some content →
      firstLine content = "3.0 (quilt)".toList → b.m_packageType = PackageType.Quilt) ∧
    (∀ content, src.stagedFormat = some content →
      firstLine content = "3.0 (native)".toList → b.m_packageType = PackageType.Native) ∧
    (src.stagedFormat = none → b.m_packageType = d) ∧
    (∀ content, src.stagedFormat = some content →
      firstLine content ≠ "3.0 (quilt)".toList → firstLine content ≠ "3.0 (native)".toList →
      b.m_packageType = d) := by
  obtain ⟨_, _, _, _, _, ht⟩ := construct_ok cfg src d b h
  rw [ht]
  refine ⟨?_, ?_, ?_, ?_⟩
  · intro content hc hq
    rw [hc, classifyFormat_eq, if_pos hq]
  · intro content hc hn
    rw [hc, classifyFormat_eq, if_pos hn, hn]
    rfl
  · intro hc
    rw [hc]
    rfl
  · intro content hc hq hn
    rw [hc, classifyFormat_eq, if_neg hq, if_neg hn]

/-- Witness for C4: the scenario files with each kind of marker. -/
theorem format_classification_witness :
    (construct Config.default (sampleView (some "3.0 (quilt)\n".toList)) PackageType.Native
        = .ok (sampleBuilder PackageType.Quilt) ∧
      (sampleBuilder PackageType.Quilt).m_packageType = PackageType.Quilt) ∧
    (construct Config.default (sampleView (some "3.0 (native)".toList)) PackageType.Quilt
        = .ok (sampleBuilder PackageType.Native) ∧
      (sampleBuilder PackageType.Native).m_packageType = PackageType.Native) ∧
    (construct Config.default (sampleView none) PackageType.Quilt
        = .ok (sampleBuilder PackageType.Quilt) ∧
      (sampleBuilder PackageType.Quilt).m_packageType = PackageType.Quilt) ∧
    (construct Config.default (sampleView (some "1.0\n".toList)) PackageType.Quilt
        = .ok (sampleBuilder PackageType.Quilt) ∧
      (sampleBuilder PackageType.Quilt).m_packageType = PackageType.Quilt) :=
  ⟨⟨rfl, (format_classification Config.default (sampleView (some "3.0 (quilt)\n".toList))
      PackageType.Native (sampleBuilder PackageType.Quilt) rfl).1 _ rfl (by decide)⟩,
   ⟨rfl, (format_classification Config.default (sampleView (some "3.0 (native)".toList))
      PackageType.Quilt (sampleBuilder PackageType.Native) rfl).2.1 _ rfl (by decide)⟩,
   ⟨rfl, (format_classification Config.default (sampleView none)
      PackageType.Quilt (sampleBuilder PackageType.Quilt) rfl).2.2.1 rfl⟩,
   ⟨rfl, (format_classification Config.default (sampleView (some "1.0\n".toList))
      PackageType.Quilt (sampleBuilder PackageType.Quilt) rfl).2.2.2 _ rfl (by decide) (by decide)⟩⟩

/-! ## C5: flags of the build command -/

theorem buildCmd_eq (cfg : Config) (b : Builder) :
    buildCmd cfg b =
      withFlags ("cd ".toList ++ b.m_tempDir ++ " && dpkg-buildpackage".toList)
        (specFlags cfg.s_threadCount cfg.s_signBuild cfg.s_signKey b.m_packageType) := by
  obtain ⟨bd, od, n, sign, key⟩ := cfg
  obtain ⟨pn, v, a, m, d, t, td⟩ := b
  by_cases hn : n > 1 <;> cases sign <;> cases key <;> cases t <;>
    simp [buildCmd, withFlags, specFlags, Builder.isNativePackage, hn]

/-- C5: the command of the build backend is `cd <staging> &&
dpkg-buildpackage` followed, in this order, by `-b`; `-j<n>` exactly when
the job count exceeds one; `-us -uc --no-sign` when signing is disabled,
otherwise `-k<key>` exactly when the key is non-empty; `-sa` exactly when
the format is Quilt.  With signing disabled the command does not depend on
the key, and with one job and Native format the flags are `-b` and the
signing part only. -/
theorem build_flag_composition (cfg : Config) (b : Builder) :
    buildCmd cfg b =
      withFlags ("cd ".toList ++ b.m_tempDir ++ " && dpkg-buildpackage".toList)
        (specFlags cfg.s_threadCount cfg.s_signBuild cfg.s_signKey b.m_packageType) ∧
    (cfg.s_signBuild = false → ∀ key,
      buildCmd { cfg with s_signKey := key } b = buildCmd cfg b) ∧
    (cfg.s_threadCount = 1 → b.m_packageType = PackageType.Native →
      buildCmd cfg b =
        withFlags ("cd ".toList ++ b.m_tempDir ++ " && dpkg-buildpackage".toList)
          (["-b".toList] ++
            (if cfg.s_signBuild = false then ["-us".toList, "-uc".toList, "--no-sign".toList]
             else if cfg.s_signKey ≠ [] then ["-k".toList ++ cfg.s_signKey] else []))) := by
  refine ⟨buildCmd_eq cfg b, ?_, ?_⟩
  · intro hs key
    rw [buildCmd_eq, buildCmd_eq]
    simp only [specFlags, hs, if_true]
  · intro hn ht
    rw [buildCmd_eq, specFlags, hn, ht]
    simp

/-- Witness for C5: eight jobs, signing disabled with a key configured,
Quilt format; and one job, Native format, signing with a key. -/
theorem build_flag_composition_witness :
    buildCmd { Config.default with s_threadCount := 8, s_signBuild := false,
                                   s_signKey := "ABCD".toList }
        (sampleBuilder PackageType.Quilt)
      = "cd .build_deb_lingmo/foo && dpkg-buildpackage -b -j8 -us -uc --no-sign -sa".toList ∧
    buildCmd { Config.default with s_signKey := "ABCD".toList } (sampleBuilder PackageType.Native)
      = "cd .build_deb_lingmo/foo && dpkg-buildpackage -b -kABCD".toList :=
  ⟨((build_flag_composition
      { Config.default with s_threadCount := 8, s_signBuild := false, s_signKey := [] }
      (sampleBuilder PackageType.Quilt)).2.1 rfl "ABCD".toList).trans (by decide),
   ((build_flag_composition { Config.default with s_signKey := "ABCD".toList }
      (sampleBuilder PackageType.Native)).2.2 rfl rfl).trans (by decide)⟩

/-! ## Upstream version -/

theorem upstreamVersionBuild_eq (v : Str) :
    upstreamVersionBuild v = v.takeWhile (· != '-') := by
  unfold upstreamVersionBuild
  cases h : find v '-' with
  | none =>
    have hn := (find_eq_none_iff v '-').1 h
    symm
    rw [List.takeWhile_eq_self_iff]
    intro x hx
    have : x ≠ '-' := fun e => hn (e ▸ hx)
    simpa using this
  | some i =>
    obtain ⟨ht, _, _⟩ := find_some_takeWhile v '-' i h
    simpa [substr] using ht

/-! ## Batch loops -/

theorem mainLoop_fold {σ : Type} (attempt : σ → Str → Bool × σ) (entries : List DirEntry)
    (st : Batch σ) :
    entries.foldl (mainStep attempt) st =
      { allSuccess := st.allSuccess &&
          (attemptAll attempt st.world (directories entries)).1.all (fun a => a.2)
        attempts := st.attempts ++ (attemptAll attempt st.world (directories entries)).1
        world := (attemptAll attempt st.world (directories entries)).2 } := by
  induction entries generalizing st with
  | nil => simp [directories, attemptAll]
  | cons e rest ih =>
    rw [List.foldl_cons, ih]
    cases hd : e.is_directory with
    | false => simp [mainStep, directories, List.filter_cons, hd]
    | true =>
      cases hr : (attempt st.world e.path).1 <;>
        simp [mainStep, directories, List.filter_cons, hd, attemptAll, hr]

theorem attemptAll_paths {σ : Type} (attempt : σ → Str → Bool × σ) (w : σ) (paths : List Str) :
    (attemptAll attempt w paths).1.map (fun a => a.1) = paths := by
  induction paths generalizing w with
  | nil => rfl
  | cons p ps ih => simp [attemptAll, ih]

/-! ## C7: which directories the batch loop attempts -/

/-- C7, the code at the failing input: under a source root with five
subdirectories of which three hold a `debian` subdirectory, and with every
external command succeeding, the loop of `main` makes five attempts, the two
directories without `debian` fail, and the exit status is 1; the filter of
`buildAllPackages` selects the three package directories only. -/
theorem main_loop_attempts_every_directory :
    (mainLoop sampleAttempt () sampleRoot).attempts =
      [("src/a".toList, true), ("src/b".toList, true), ("src/c".toList, true),
       ("src/d".toList, false), ("src/e".toList, false)] ∧
    mainExit (mainLoop sampleAttempt () sampleRoot) = 1 ∧
    packageDirectories sampleRoot = ["src/a".toList, "src/b".toList, "src/c".toList] ∧
    (buildAllPackages sampleAttempt () sampleRoot).attempts.map (fun a => a.1) =
      ["src/a/debian".toList, "src/b/debian".toList, "src/c/debian".toList] := by
  refine ⟨?_, ?_, ?_, ?_⟩ <;> rfl

/-! ## C8: aggregation without fail-fast -/

/-- C8: for every list of entries and every behaviour of the individual
attempts, the loop of `main` attempts every candidate directory in turn,
whatever the earlier results; its success flag is the conjunction of the
results of the attempts; and the exit status is 1 as soon as one attempt
failed, 0 otherwise, the number of attempts being the number of candidates
in both cases. -/
theorem batch_aggregation_no_fail_fast {σ : Type} (attempt : σ → Str → Bool × σ) (w : σ)
    (entries : List DirEntry) :
    (mainLoop attempt w entries).attempts = (attemptAll attempt w (directories entries)).1 ∧
    (mainLoop attempt w entries).world = (attemptAll attempt w (directories entries)).2 ∧
    (mainLoop attempt w entries).attempts.map (fun a => a.1) = directories entries ∧
    (mainLoop attempt w entries).attempts.length = (directories entries).length ∧
    (mainLoop attempt w entries).allSuccess =
      (mainLoop attempt w entries).attempts.all (fun a => a.2) ∧
    ((mainLoop attempt w entries).allSuccess = true ↔
      ∀ a ∈ (mainLoop attempt w entries).attempts, a.2 = true) ∧
    mainExit (mainLoop attempt w entries) =
      (if (mainLoop attempt w entries).attempts.all (fun a => a.2) then 0 else 1) ∧
    ((∃ a ∈ (mainLoop attempt w entries).attempts, a.2 = false) →
      mainExit (mainLoop attempt w entries) = 1) := by
  have key := mainLoop_fold attempt entries { allSuccess := true, attempts := [], world := w }
  have hA : (mainLoop attempt w entries).attempts
      = (attemptAll attempt w (directories entries)).1 := by
    unfold mainLoop; rw [key]; simp
  have hW : (mainLoop attempt w entries).world
      = (attemptAll attempt w (directories entries)).2 := by
    unfold mainLoop; rw [key]
  have hS : (mainLoop attempt w entries).allSuccess
      = (mainLoop attempt w entries).attempts.all (fun a => a.2) := by
    rw [hA]; unfold mainLoop; rw [key]; simp
  have hP := attemptAll_paths attempt w (directories entries)
  refine ⟨hA, hW, ?_, ?_, hS, ?_, ?_, ?_⟩
  · rw [hA, hP]
  · rw [hA, ← List.length_map, hP]
  · rw [hS, List.all_eq_true]
  · unfold mainExit
    rw [hS]
    cases (mainLoop attempt w entries).attempts.all (fun a => a.2) <;> rfl
  · rintro ⟨a, ha, hf⟩
    unfold mainExit
    rw [hS]
    have : (mainLoop attempt w entries).attempts.all (fun a => a.2) = false := by
      rw [List.all_eq_false]
      exact ⟨a, ha, by simp [hf]⟩
    rw [this]
    rfl

/-- Witness for C8: under the sample root one failed attempt gives exit
status 1 while all five directories were attempted. -/
theorem batch_aggregation_no_fail_fast_witness :
    (∃ a ∈ (mainLoop sampleAttempt () sampleRoot).attempts, a.2 = false) ∧
    mainExit (mainLoop sampleAttempt () sampleRoot) = 1 ∧
    (mainLoop sampleAttempt () sampleRoot).attempts.length = 5 :=
  ⟨⟨("src/d".toList, false), by decide, rfl⟩,
   (batch_aggregation_no_fail_fast sampleAttempt () sampleRoot).2.2.2.2.2.2.2
     ⟨("src/d".toList, false), by decide, rfl⟩,
   (batch_aggregation_no_fail_fast sampleAttempt () sampleRoot).2.2.2.1⟩

/-! ## C9: the orig archive -/

theorem buildTarCmd_eq (b : Builder) :
    buildTarCmd b =
      "cd ".toList ++ parent_path b.m_tempDir ++ " && tar --exclude=debian -Jcf ".toList
        ++ specArchiveName b.m_packageName b.m_version ++ " -C ".toList ++ b.m_packageName
        ++ " .".toList := by
  simp [buildTarCmd, specArchiveName, upstreamVersionBuild_eq]

theorem buildBackend_archives {σ : Type} (env : Env σ) (cfg : Config) (b : Builder) (s : σ)
    (before : List Event) :
    archiveCommands (buildBackend env cfg b s before).events = archiveCommands before := by
  simp only [buildBackend]
  split_ifs <;> simp [archiveCommands, List.filterMap_append]

/-- C9 as stated fails: for a Quilt package whose staging copy command exits
with a non-zero status, `build` returns false after that command and issues
no archive command at all. -/
theorem orig_archive_counterexample :
    (sampleBuilder PackageType.Quilt).m_packageType = PackageType.Quilt ∧
    (build failingWorld Config.default (sampleBuilder PackageType.Quilt) "src/foo".toList ()).result
      = false ∧
    (build failingWorld Config.default (sampleBuilder PackageType.Quilt) "src/foo".toList ()).events
      = [Event.stagingCopy "cp -r src/foo/* .build_deb_lingmo/foo".toList] ∧
    (archiveCommands (build failingWorld Config.default (sampleBuilder PackageType.Quilt)
      "src/foo".toList ()).events).length = 0 := by
  refine ⟨rfl, rfl, ?_, rfl⟩
  decide

/-- C9, amended: for every Native package `createOrigTarball` returns true
without taking any step and leaves the world as it was, and `build` issues no
archive command; for every Quilt package `build` issues exactly one archive
command when the staging copy command exits with status 0 and none
otherwise, and the archive that command names is
`<packageName>_<upstreamVersion>.orig.tar.xz`. -/
theorem orig_archive_by_format {σ : Type} (env : Env σ) (cfg : Config) (b : Builder)
    (sourceDir : Str) (s : σ) :
    (b.m_packageType = PackageType.Native →
      (createOrigTarball env b s).result = true ∧ (createOrigTarball env b s).events = [] ∧
        (createOrigTarball env b s).world = s) ∧
    (b.m_packageType = PackageType.Native →
      archiveCommands (build env cfg b sourceDir s).events = []) ∧
    (b.m_packageType = PackageType.Quilt →
      archiveCommands (build env cfg b sourceDir s).events =
        if (env.system s ("cp -r ".toList ++ sourceDir ++ "/* ".toList ++ b.m_tempDir)).1 = 0 then
          ["cd ".toList ++ parent_path b.m_tempDir ++ " && tar --exclude=debian -Jcf ".toList
            ++ specArchiveName b.m_packageName b.m_version ++ " -C ".toList ++ b.m_packageName
            ++ " .".toList]
        else []) := by
  refine ⟨?_, ?_, ?_⟩
  · intro hn
    simp [createOrigTarball, Builder.isNativePackage, hn]
  · intro hn
    have hnat : b.isNativePackage = true := by simp [Builder.isNativePackage, hn]
    simp only [build, hnat, Bool.not_true, Bool.false_eq_true, if_false]
    split_ifs
    · rfl
    · rw [buildBackend_archives]; rfl
  · intro hq
    have hnat : b.isNativePackage = false := by simp [Builder.isNativePackage, hq]
    rw [← buildTarCmd_eq]
    simp only [build, hnat, Bool.not_false, if_true, runCommand]
    by_cases h0 : (env.system s ("cp -r ".toList ++ sourceDir ++ "/* ".toList ++ b.m_tempDir)).1 = 0
    · simp only [h0, beq_self_eq_true, Bool.not_true, Bool.false_eq_true, if_false, if_true]
      split_ifs
      · rfl
      · rw [buildBackend_archives]; rfl
    · have hb : ((env.system s ("cp -r ".toList ++ sourceDir ++ "/* ".toList ++ b.m_tempDir)).1
          == 0) = false := by simpa using h0
      simp only [hb, h0, Bool.not_false, if_true, if_false]
      rfl

/-- Witness for C9: in the calm world the Quilt sample package gets one
archive command naming `foo_1.0.orig.tar.xz`, the Native one none. -/
theorem orig_archive_by_format_witness :
    archiveCommands (build calmWorld Config.default (sampleBuilder PackageType.Quilt)
        "src/foo".toList ()).events
      = ["cd .build_deb_lingmo && tar --exclude=debian -Jcf foo_1.0.orig.tar.xz -C foo .".toList] ∧
    archiveCommands (build calmWorld Config.default (sampleBuilder PackageType.Native)
        "src/foo".toList ()).events = [] ∧
    (createOrigTarball calmWorld (sampleBuilder PackageType.Native) ()).result = true :=
  ⟨((orig_archive_by_format calmWorld Config.default (sampleBuilder PackageType.Quilt)
      "src/foo".toList ()).2.2 rfl).trans (by decide),
   (orig_archive_by_format calmWorld Config.default (sampleBuilder PackageType.Native)
      "src/foo".toList ()).2.1 rfl,
   ((orig_archive_by_format calmWorld Config.default (sampleBuilder PackageType.Native)
      "src/foo".toList ()).1 rfl).1⟩

/-! ## C10: the staging path -/

theorem correctNameOf_eq (content : Str) (h : correctNameOf content ≠ []) :
    correctNameOf content = (firstLine content).takeWhile (· != ' ') := by
  unfold correctNameOf at h ⊢
  rw [getline_eq] at h ⊢
  by_cases hc : content = []
  · simp [hc] at h
  · simp only [hc, if_false] at h ⊢
    cases hf : find (firstLine content) ' ' with
    | none => simp [hf] at h
    | some i =>
      obtain ⟨ht, _, _⟩ := find_some_takeWhile _ ' ' i hf
      simpa [substr] using ht

/-- C10: for every successfully constructed object the staging directory is
`s_buildDir / m_packageName` for the object's final name, and that name is
the name token of the changelog's first line (the text before its first
space), whatever `Package: ` value the control file carries. -/
theorem staging_path_invariant (cfg : Config) (src : SourceView) (type : PackageType)
    (b : Builder) (h : construct cfg src type = .ok b) :
    b.m_tempDir = pathAppend cfg.s_buildDir b.m_packageName ∧
    ∃ content, src.changelog = some content ∧
      b.m_packageName = (firstLine content).takeWhile (· != ' ') := by
  obtain ⟨content, hc, hne, hn, ht, _⟩ := construct_ok cfg src type b h
  refine ⟨by rw [ht, hn], content, hc, ?_⟩
  rw [hn, correctNameOf_eq content hne]

/-- Witness for C10: the changelog names the package `foo`, the control
file says `Package: bar`; the object is named `foo` and staged under
`.build_deb_lingmo/foo`. -/
theorem staging_path_invariant_witness :
    construct Config.default
        { sampleView none with stagedControl := some "Package: bar\nArchitecture: amd64\n".toList }
        PackageType.Native
      = .ok { sampleBuilder PackageType.Native with m_maintainer := [], m_description := [] } ∧
    ".build_deb_lingmo/foo".toList = pathAppend Config.default.s_buildDir "foo".toList :=
  ⟨rfl, (staging_path_invariant Config.default
      { sampleView none with stagedControl := some "Package: bar\nArchitecture: amd64\n".toList }
      PackageType.Native
      { sampleBuilder PackageType.Native with m_maintainer := [], m_description := [] } rfl).1⟩

/-! ## C11: artifact collection after a successful backend run -/

theorem build_copy_failed {σ : Type} (env : Env σ) (cfg : Config) (b : Builder)
    (sourceDir : Str) (s : σ) (h : copyStatus env b sourceDir s ≠ 0) :
    (build env cfg b sourceDir s).result = false ∧
      (build env cfg b sourceDir s).events = [Event.stagingCopy (stagingCopyCmd b sourceDir)] := by
  have hb : ((env.system s (stagingCopyCmd b sourceDir)).1 == 0) = false := by
    simpa [copyStatus] using h
  simp only [build, runCommand]
  rw [show "cp -r ".toList ++ sourceDir ++ "/* ".toList ++ b.m_tempDir
    = stagingCopyCmd b sourceDir from rfl, hb]
  exact ⟨rfl, rfl⟩

theorem build_archive_failed {σ : Type} (env : Env σ) (cfg : Config) (b : Builder)
    (sourceDir : Str) (s : σ) (h1 : copyStatus env b sourceDir s = 0)
    (hn : b.isNativePackage = false) (h2 : archiveStatus env b sourceDir s ≠ 0) :
    (build env cfg b sourceDir s).result = false ∧
      (build env cfg b sourceDir s).events =
        [Event.stagingCopy (stagingCopyCmd b sourceDir), Event.archive (buildTarCmd b)] := by
  have hb1 : ((env.system s (stagingCopyCmd b sourceDir)).1 == 0) = true := by
    simpa [copyStatus] using h1
  have hb2 : ((env.system (env.system s (stagingCopyCmd b sourceDir)).2 (buildTarCmd b)).1 == 0)
      = false := by
    simpa [archiveStatus] using h2
  simp only [build, runCommand]
  rw [show "cp -r ".toList ++ sourceDir ++ "/* ".toList ++ b.m_tempDir
    = stagingCopyCmd b sourceDir from rfl, hb1, hn, hb2]
  exact ⟨rfl, rfl⟩

theorem build_reaches_backend {σ : Type} (env : Env σ) (cfg : Config) (b : Builder)
    (sourceDir : Str) (s : σ) (h1 : copyStatus env b sourceDir s = 0)
    (h2 : b.isNativePackage = true ∨ archiveStatus env b sourceDir s = 0) :
    build env cfg b sourceDir s =
      buildBackend env cfg b (worldBeforeBackend env b sourceDir s)
        (stepsBeforeBackend b sourceDir) := by
  have hb1 : ((env.system s (stagingCopyCmd b sourceDir)).1 == 0) = true := by
    simpa [copyStatus] using h1
  simp only [build, runCommand]
  rw [show "cp -r ".toList ++ sourceDir ++ "/* ".toList ++ b.m_tempDir
    = stagingCopyCmd b sourceDir from rfl, hb1]
  cases hn : b.isNativePackage with
  | true => simp [worldBeforeBackend, stepsBeforeBackend, hn]
  | false =>
    rcases h2 with h2 | h2
    · rw [hn] at h2; exact absurd h2 (by decide)
    · have hb2 : ((env.system (env.system s (stagingCopyCmd b sourceDir)).2 (buildTarCmd b)).1
          == 0) = true := by
        simpa [archiveStatus] using h2
      simp [worldBeforeBackend, stepsBeforeBackend, hn, hb2]

theorem collected_stepsBeforeBackend (b : Builder) (sourceDir : Str) :
    collected (stepsBeforeBackend b sourceDir) = false := by
  unfold stepsBeforeBackend
  cases b.isNativePackage <;> rfl

theorem buildBackend_failed {σ : Type} (env : Env σ) (cfg : Config) (b : Builder) (w : σ)
    (before : List Event) (h : (env.system w (buildCmd cfg b)).1 ≠ 0) :
    (buildBackend env cfg b w before).result = false ∧
      (buildBackend env cfg b w before).events = before ++ [Event.backend (buildCmd cfg b)] := by
  have hb : ((env.system w (buildCmd cfg b)).1 == 0) = false := by simpa using h
  simp only [buildBackend, runCommand, hb]
  exact ⟨rfl, rfl⟩

theorem buildBackend_passed {σ : Type} (env : Env σ) (cfg : Config) (b : Builder) (w : σ)
    (before : List Event) (h : (env.system w (buildCmd cfg b)).1 = 0) :
    (buildBackend env cfg b w before).events =
      before ++ [Event.backend (buildCmd cfg b), Event.collect b.m_packageName] := by
  have hb : ((env.system w (buildCmd cfg b)).1 == 0) = true := by simpa using h
  simp only [buildBackend, runCommand, hb]
  rfl

theorem collected_append (xs ys : List Event) :
    collected (xs ++ ys) = (collected xs || collected ys) := by
  simp [collected, List.any_append]

/-- C11: in every run of `build`, whatever exit statuses the external
commands return, artifact collection takes place only if the
`dpkg-buildpackage` command was issued and returned status 0, and then it is
the step right after that command.  If the staging copy, the archive command
or the build backend returns a non-zero status, `build` returns false, the
failed command is the last step of the run, and no artifact is collected. -/
theorem collection_only_after_backend {σ : Type} (env : Env σ) (cfg : Config) (b : Builder)
    (sourceDir : Str) (s : σ) :
    (collected (build env cfg b sourceDir s).events = true →
      Event.backend (buildCmd cfg b) ∈ (build env cfg b sourceDir s).events ∧
      backendStatus env cfg b sourceDir s = 0 ∧
      (build env cfg b sourceDir s).events =
        stepsBeforeBackend b sourceDir
          ++ [Event.backend (buildCmd cfg b), Event.collect b.m_packageName]) ∧
    (copyStatus env b sourceDir s ≠ 0 →
      (build env cfg b sourceDir s).result = false ∧
      (build env cfg b sourceDir s).events = [Event.stagingCopy (stagingCopyCmd b sourceDir)] ∧
      collected (build env cfg b sourceDir s).events = false) ∧
    (copyStatus env b sourceDir s = 0 → b.isNativePackage = false →
      archiveStatus env b sourceDir s ≠ 0 →
      (build env cfg b sourceDir s).result = false ∧
      (build env cfg b sourceDir s).events =
        [Event.stagingCopy (stagingCopyCmd b sourceDir), Event.archive (buildTarCmd b)] ∧
      collected (build env cfg b sourceDir s).events = false) ∧
    (copyStatus env b sourceDir s = 0 →
      (b.isNativePackage = true ∨ archiveStatus env b sourceDir s = 0) →
      backendStatus env cfg b sourceDir s ≠ 0 →
      (build env cfg b sourceDir s).result = false ∧
      (build env cfg b sourceDir s).events =
        stepsBeforeBackend b sourceDir ++ [Event.backend (buildCmd cfg b)] ∧
      collected (build env cfg b sourceDir s).events = false) := by
  have part2 : copyStatus env b sourceDir s ≠ 0 →
      (build env cfg b sourceDir s).result = false ∧
      (build env cfg b sourceDir s).events = [Event.stagingCopy (stagingCopyCmd b sourceDir)] ∧
      collected (build env cfg b sourceDir s).events = false := by
    intro h
    obtain ⟨hr, he⟩ := build_copy_failed env cfg b sourceDir s h
    exact ⟨hr, he, by rw [he]; rfl⟩
  have part3 : copyStatus env b sourceDir s = 0 → b.isNativePackage = false →
      archiveStatus env b sourceDir s ≠ 0 →
      (build env cfg b sourceDir s).result = false ∧
      (build env cfg b sourceDir s).events =
        [Event.stagingCopy (stagingCopyCmd b sourceDir), Event.archive (buildTarCmd b)] ∧
      collected (build env cfg b sourceDir s).events = false := by
    intro h1 hn h2
    obtain ⟨hr, he⟩ := build_archive_failed env cfg b sourceDir s h1 hn h2
    exact ⟨hr, he, by rw [he]; rfl⟩
  have part4 : copyStatus env b sourceDir s = 0 →
      (b.isNativePackage = true ∨ archiveStatus env b sourceDir s = 0) →
      backendStatus env cfg b sourceDir s ≠ 0 →
      (build env cfg b sourceDir s).result = false ∧
      (build env cfg b sourceDir s).events =
        stepsBeforeBackend b sourceDir ++ [Event.backend (buildCmd cfg b)] ∧
      collected (build env cfg b sourceDir s).events = false := by
    intro h1 h2 h3
    rw [build_reaches_backend env cfg b sourceDir s h1 h2]
    obtain ⟨hr, he⟩ := buildBackend_failed env cfg b (worldBeforeBackend env b sourceDir s)
      (stepsBeforeBackend b sourceDir) h3
    refine ⟨hr, he, ?_⟩
    rw [he, collected_append, collected_stepsBeforeBackend]
    rfl
  refine ⟨?_, part2, part3, part4⟩
  intro hc
  by_cases h1 : copyStatus env b sourceDir s = 0
  · by_cases h2 : b.isNativePackage = true ∨ archiveStatus env b sourceDir s = 0
    · by_cases h3 : backendStatus env cfg b sourceDir s = 0
      · have he : (build env cfg b sourceDir s).events =
            stepsBeforeBackend b sourceDir
              ++ [Event.backend (buildCmd cfg b), Event.collect b.m_packageName] := by
          rw [build_reaches_backend env cfg b sourceDir s h1 h2]
          exact buildBackend_passed env cfg b _ _ h3
        refine ⟨?_, h3, he⟩
        rw [he]
        simp
      · rw [(part4 h1 h2 h3).2.2] at hc
        exact absurd hc (by decide)
    · have hn : b.isNativePackage = false := by
        cases hb : b.isNativePackage with
        | false => rfl
        | true => exact absurd (Or.inl hb) h2
      have h2b : archiveStatus env b sourceDir s ≠ 0 := fun h => h2 (Or.inr h)
      rw [(part3 h1 hn h2b).2.2] at hc
      exact absurd hc (by decide)
  · rw [(part2 h1).2.2] at hc
    exact absurd hc (by decide)

/-- Witness for C11: the Quilt sample package in worlds where the first,
second or third command fails, and in the calm world where artifacts are
collected after the backend. -/
theorem collection_only_after_backend_witness :
    (build (failAt 0) Config.default (sampleBuilder PackageType.Quilt)
        "src/foo".toList 0).result = false ∧
    (build (failAt 1) Config.default (sampleBuilder PackageType.Quilt)
        "src/foo".toList 0).result = false ∧
    collected (build (failAt 2) Config.default (sampleBuilder PackageType.Quilt)
        "src/foo".toList 0).events = false ∧
    backendStatus calmWorld Config.default (sampleBuilder PackageType.Quilt)
        "src/foo".toList () = 0 :=
  ⟨((collection_only_after_backend (failAt 0) Config.default (sampleBuilder PackageType.Quilt)
      "src/foo".toList 0).2.1 (by decide)).1,
   ((collection_only_after_backend (failAt 1) Config.default (sampleBuilder PackageType.Quilt)
      "src/foo".toList 0).2.2.1 (by decide) rfl (by decide)).1,
   ((collection_only_after_backend (failAt 2) Config.default (sampleBuilder PackageType.Quilt)
      "src/foo".toList 0).2.2.2 (by decide) (Or.inr (by decide)) (by decide)).2.2,
   ((collection_only_after_backend calmWorld Config.default (sampleBuilder PackageType.Quilt)
      "src/foo".toList ()).1 (by decide)).2.1⟩

/-! ## C6: the upstream version in both code paths -/

theorem upstreamVersionTarball_eq (v : Str) :
    upstreamVersionTarball v = v.takeWhile (· != '-') :=
  upstreamVersionBuild_eq v

theorem createOrigTarball_archive {σ : Type} (env : Env σ) (b : Builder) (s : σ)
    (hn : b.isNativePackage = false) (hfs : (env.fs s FsStep.scratchCopy).1 = true) :
    archiveCommands (createOrigTarball env b s).events =
      ["cd ".toList ++ b.m_tempDir ++ " && tar -Jcf ".toList
        ++ specArchiveName b.m_packageName b.m_version ++ " ".toList ++ b.m_packageName] := by
  simp [createOrigTarball, hn, hfs, archiveCommands, specArchiveName, upstreamVersionTarball_eq]

theorem build_archive {σ : Type} (env : Env σ) (cfg : Config) (b : Builder) (sourceDir : Str)
    (s : σ) (hn : b.isNativePackage = false) (h1 : copyStatus env b sourceDir s = 0) :
    archiveCommands (build env cfg b sourceDir s).events =
      ["cd ".toList ++ parent_path b.m_tempDir ++ " && tar --exclude=debian -Jcf ".toList
        ++ specArchiveName b.m_packageName b.m_version ++ " -C ".toList ++ b.m_packageName
        ++ " .".toList] := by
  rw [← buildTarCmd_eq]
  by_cases h2 : archiveStatus env b sourceDir s = 0
  · rw [build_reaches_backend env cfg b sourceDir s h1 (Or.inr h2), buildBackend_archives]
    simp [stepsBeforeBackend, hn, archiveCommands]
  · rw [(build_archive_failed env cfg b sourceDir s h1 hn h2).2]
    rfl

/-- C6: for every version string, the upstream version computed by
`createOrigTarball` and by `build` is the same string; it is the part of the
version before its first hyphen when there is one, and the whole version
otherwise; and it contains no hyphen.  `1.2.3-4ubuntu1` gives `1.2.3` and
`2.0` gives `2.0`.  It is the version both functions put into the archive
command of a Quilt package: `createOrigTarball` once its scratch copy is
made, `build` once its staging copy has succeeded, each names the archive
`<packageName>_<version up to the first hyphen>.orig.tar.xz`. -/
theorem upstream_version_extraction :
    (∀ v : Str,
      upstreamVersionTarball v = upstreamVersionBuild v ∧
      '-' ∉ upstreamVersionBuild v ∧
      ('-' ∈ v → ∃ rest, v = upstreamVersionBuild v ++ '-' :: rest) ∧
      ('-' ∉ v → upstreamVersionBuild v = v)) ∧
    upstreamVersionBuild "1.2.3-4ubuntu1".toList = "1.2.3".toList ∧
    upstreamVersionBuild "2.0".toList = "2.0".toList ∧
    upstreamVersionTarball "1.2.3-4ubuntu1".toList = "1.2.3".toList ∧
    upstreamVersionTarball "2.0".toList = "2.0".toList ∧
    (∀ (σ : Type) (env : Env σ) (b : Builder) (s : σ),
      b.m_packageType = PackageType.Quilt → (env.fs s FsStep.scratchCopy).1 = true →
      archiveCommands (createOrigTarball env b s).events =
        ["cd ".toList ++ b.m_tempDir ++ " && tar -Jcf ".toList
          ++ (b.m_packageName ++ "_".toList ++ b.m_version.takeWhile (· != '-')
            ++ ".orig.tar.xz".toList)
          ++ " ".toList ++ b.m_packageName]) ∧
    (∀ (σ : Type) (env : Env σ) (cfg : Config) (b : Builder) (sourceDir : Str) (s : σ),
      b.m_packageType = PackageType.Quilt → copyStatus env b sourceDir s = 0 →
      archiveCommands (build env cfg b sourceDir s).events =
        ["cd ".toList ++ parent_path b.m_tempDir ++ " && tar --exclude=debian -Jcf ".toList
          ++ (b.m_packageName ++ "_".toList ++ b.m_version.takeWhile (· != '-')
            ++ ".orig.tar.xz".toList)
          ++ " -C ".toList ++ b.m_packageName ++ " .".toList]) := by
  refine ⟨fun v => ⟨rfl, ?_, ?_, ?_⟩, by decide, by decide, by decide, by decide, ?_, ?_⟩
  · rw [upstreamVersionBuild_eq]
    intro hm
    have := List.mem_takeWhile_imp hm
    simp at this
  · intro hm
    cases h : find v '-' with
    | none => exact absurd hm ((find_eq_none_iff v '-').1 h)
    | some i =>
      obtain ⟨ht, hd, _⟩ := find_some_takeWhile v '-' i h
      refine ⟨(v.dropWhile (· != '-')).tail, ?_⟩
      rw [upstreamVersionBuild_eq, ← ht, ← hd, List.take_append_drop]
  · intro hn
    unfold upstreamVersionBuild
    rw [(find_eq_none_iff v '-').2 hn]
  · intro σ env b s hq hfs
    have hn : b.isNativePackage = false := by simp [Builder.isNativePackage, hq]
    exact createOrigTarball_archive env b s hn hfs
  · intro σ env cfg b sourceDir s hq h1
    have hn : b.isNativePackage = false := by simp [Builder.isNativePackage, hq]
    exact build_archive env cfg b sourceDir s hn h1

/-- Witness for C6: a version with a hyphen splits at it, one without is
returned unchanged; for the Quilt sample package at version `1.0-1` both
`createOrigTarball` and `build` name the archive `foo_1.0.orig.tar.xz`. -/
theorem upstream_version_extraction_witness :
    (∃ rest, "1.2.3-4ubuntu1".toList = upstreamVersionBuild "1.2.3-4ubuntu1".toList
      ++ '-' :: rest) ∧
    upstreamVersionBuild "2.0".toList = "2.0".toList ∧
    archiveCommands (createOrigTarball calmWorld (sampleBuilder PackageType.Quilt) ()).events
      = ["cd .build_deb_lingmo/foo && tar -Jcf foo_1.0.orig.tar.xz foo".toList] ∧
    archiveCommands (build calmWorld Config.default (sampleBuilder PackageType.Quilt)
        "src/foo".toList ()).events
      = ["cd .build_deb_lingmo && tar --exclude=debian -Jcf foo_1.0.orig.tar.xz -C foo .".toList] :=
  ⟨(upstream_version_extraction.1 "1.2.3-4ubuntu1".toList).2.2.1 (by decide),
   (upstream_version_extraction.1 "2.0".toList).2.2.2 (by decide),
   (upstream_version_extraction.2.2.2.2.2.1 Unit calmWorld (sampleBuilder PackageType.Quilt) ()
      rfl rfl).trans (by decide),
   (upstream_version_extraction.2.2.2.2.2.2 Unit calmWorld Config.default
      (sampleBuilder PackageType.Quilt) "src/foo".toList () rfl (by decide)).trans (by decide)⟩

end LingmoPkgBuild
